import Mathlib

/-!
Shallow embedding of `src/AiDemo/server.js` (IFCRag): schema discovery with
caching, schema-hint prompt building, the query resolver with its fallback
ladder, fallback query generation, result formatting and global-id
extraction.  Database and translator calls are modelled as explicit
`Except`-valued oracles passed in as arguments; session lifecycle is made
observable through an explicit event trace.
-/

namespace IFCRag

/-! ## JS string helpers -/

/-- JS whitespace test (ASCII-adequate model of the characters `trim` removes). -/
def isWs (c : Char) : Bool := c.isWhitespace

/-- JS `String.prototype.trim`. -/
def jsTrim (s : String) : String :=
  String.mk (((s.data.dropWhile isWs).reverse.dropWhile isWs).reverse)

/-- Does the second list start with the first one? -/
def startsWithL : List Char → List Char → Bool
  | [], _ => true
  | _ :: _, [] => false
  | p :: ps, c :: cs => p == c && startsWithL ps cs

/-- Does the list contain `pat` as a contiguous run? -/
def hasSubL (pat : List Char) : List Char → Bool
  | [] => startsWithL pat []
  | c :: cs => startsWithL pat (c :: cs) || hasSubL pat cs

/-- JS `String.prototype.includes`. -/
def strIncludes (s pat : String) : Bool := hasSubL pat.data s.data

/-- JS `String.prototype.toLowerCase` (character-wise lowering). -/
def jsToLower (s : String) : String := String.mk (s.data.map Char.toLower)

/-- JS `String.prototype.endsWith`. -/
def strEndsWith (s suf : String) : Bool := startsWithL suf.data.reverse s.data.reverse

/-- Drop one leading newline, if any (the `\n?` part of the fence regexes). -/
def dropNl : List Char → List Char
  | '\n' :: rest => rest
  | s => s

/-- Fuel-driven worker for `stripOcc`; with fuel at least the length of the
input it removes every occurrence of `pat` (each together with one optional
following newline), scanning left to right without overlap, exactly like a
global `replace` of the regex `pat\n?` with the empty string. -/
def stripOccGo (pat : List Char) : Nat → List Char → List Char
  | _, [] => []
  | 0, s => s
  | fuel + 1, c :: cs =>
    if pat ≠ [] ∧ startsWithL pat (c :: cs) = true then
      stripOccGo pat fuel (dropNl ((c :: cs).drop pat.length))
    else
      c :: stripOccGo pat fuel cs

/-- Remove every occurrence of `pat` plus an optional trailing newline. -/
def stripOcc (pat s : List Char) : List Char := stripOccGo pat s.length s

/-- The code-fence patterns stripped from translator output (server.js line 227). -/
def fenceCy : List Char := "```cypher".data

/-- The bare code-fence pattern. -/
def fenceBare : List Char := "```".data

/-- Cleaning of the translator's raw text (server.js lines 226-227):
trim, strip ```cypher fences, strip bare ``` fences, trim again. -/
def cleanCypher (raw : String) : String :=
  jsTrim (String.mk (stripOcc fenceBare (stripOcc fenceCy (jsTrim raw).data)))

/-- JS `Array.prototype.join` on strings. -/
def joinSep (sep : String) : List String → String
  | [] => ""
  | [x] => x
  | x :: xs => x ++ sep ++ joinSep sep xs

/-- Count occurrences of a character in a string. -/
def countChar (s : String) (c : Char) : Nat := s.data.count c

/-! ## Result cell values (the neo4j row model) -/

/-- A cell of a result row: null, number, string, boolean, array, or a
node/relationship object exposing a `properties` bag (modelled, as in the
spec's data model, as a key to scalar-string mapping). -/
inductive Value where
  | vNull : Value
  | vNum (n : Int) : Value
  | vStr (s : String) : Value
  | vBool (b : Bool) : Value
  | vArr (xs : List Value) : Value
  | vBag (props : List (String × String)) : Value

/-- JS truthiness of a cell value. -/
def truthy : Value → Bool
  | .vNull => false
  | .vNum n => n != 0
  | .vStr s => s != ""
  | .vBool b => b
  | .vArr _ => true
  | .vBag _ => true

/-- Fuel-driven JS `String(value)` conversion; arrays stringify as their
elements joined by `","` with null elements rendered empty.  Any fuel at
least the nesting depth of the value gives the exact JS semantics. -/
def jsToStringF : Nat → Value → String
  | _, .vNull => "null"
  | _, .vNum n => toString n
  | _, .vStr s => s
  | _, .vBool b => cond b "true" "false"
  | _, .vBag _ => "[object Object]"
  | 0, .vArr _ => ""
  | fuel + 1, .vArr xs =>
    joinSep "," (xs.map fun v =>
      match v with
      | .vNull => ""
      | w => jsToStringF fuel w)

mutual

/-- Nesting depth of a cell value (fuel bound for `jsToStringF`). -/
def vDepth : Value → Nat
  | .vArr xs => vsDepth xs + 1
  | _ => 0

/-- Nesting depth of a list of cell values. -/
def vsDepth : List Value → Nat
  | [] => 0
  | v :: vs => max (vDepth v) (vsDepth vs)

end

/-- JS string conversion of a cell value. -/
def jsToString : Value → String
  | .vArr xs => jsToStringF (vsDepth xs + 1) (.vArr xs)
  | v => jsToStringF 1 v

/-- JS `Array.prototype.join sep` over cell values (null renders empty). -/
def jsJoinVals (sep : String) (xs : List Value) : String :=
  joinSep sep (xs.map fun v =>
    match v with
    | .vNull => ""
    | w => jsToString w)

/-- JS `a || d` for an optionally-present cell value. -/
def jsOr (v : Option Value) (d : Value) : Value :=
  match v with
  | some x => if truthy x then x else d
  | none => d

/-- A result row: an ordered mapping from column name to cell value. -/
abbrev Record := List (String × Value)

/-- A result set: the list of rows returned by one query execution. -/
abbrev Res := List (List (String × Value))

/-- The ordered column names of a row (`record.keys`). -/
def recKeys (r : List (String × Value)) : List String := r.map Prod.fst

/-- Column access (`record.get(key)`). -/
def recGet (r : List (String × Value)) (k : String) : Option Value :=
  (r.find? fun kv => kv.1 == k).map Prod.snd

/-- Lookup in a property bag (JS object field access). -/
def lookupStr (props : List (String × String)) (k : String) : Option String :=
  (props.find? fun p => p.1 == k).map Prod.snd


/-! ## Schema model and `discoverSchema` (server.js lines 20-124)

The database work inside the `try` block (the label/count query, the
per-label sampling queries and the relationship-type query) is modelled as
one oracle input of type `Except Unit DiscData`: either all the raw data
those queries produced, or the error that some `session.run` threw.  The
process-wide mutable cache (`schemaCache`, `schemaCacheTime`) is explicit
state threaded through the function, and `Date.now()` is the `now`
argument.  Session acquisition and release are recorded as events. -/

/-- A sampled node preview (`{nid, name, globalId}` pushed at line 69). -/
structure SampleRec where
  nid : Option Int
  name : String
  globalId : String
  deriving DecidableEq

/-- Per-label schema info (server.js lines 76-80). -/
structure LabelInfo where
  count : Int
  properties : List String
  samples : List SampleRec
  deriving DecidableEq

/-- A discovered schema snapshot `{labels, relationships}`; JS objects with
insertion order are modelled as association lists. -/
structure Snapshot where
  labels : List (String × LabelInfo)
  relationships : List (String × Int)
  deriving DecidableEq

/-- One raw row of a per-label sampling query (line 55-61). -/
structure SampleRow where
  props : List String
  nid : Option Int
  name : String
  globalId : String

/-- The raw data produced by the discovery queries when none of them throws:
label/count rows (already ordered by count descending), the sampled rows for
each label, and relationship-type/count rows. -/
structure DiscData where
  labelRecs : List (String × Int)
  sampleOf : String → List SampleRow
  relRecs : List (String × Int)

/-- Session lifecycle and query events, for the resource-safety claims. -/
inductive DbEvent where
  | sopen : DbEvent
  | sclose : DbEvent
  | run (cypher : String) : DbEvent
  deriving DecidableEq

/-- Insert with JS `Set.add` semantics: keep first occurrence, keep order. -/
def addId (acc : List String) (s : String) : List String :=
  if s ∈ acc then acc else acc ++ [s]

/-- Insertion-ordered deduplication (JS `Set` built by repeated `add`). -/
def dedupKeep (l : List String) : List String := l.foldl addId []

/-- Union of the property keys over the sampled rows (lines 63-68). -/
def collectProps (rows : List SampleRow) : List String :=
  dedupKeep (rows.flatMap SampleRow.props)

/-- Build the snapshot from successfully discovered raw data
(lines 48-104): labels with count 0 are skipped, each kept label gets the
property-key union and up to 2 sample previews, and relationship types with
count 0 are skipped. -/
def buildSnapshot (d : DiscData) : Snapshot where
  labels := d.labelRecs.filterMap fun lc =>
    if lc.2 > 0 then
      let rows := d.sampleOf lc.1
      some (lc.1,
        { count := lc.2
          properties := collectProps rows
          samples := (rows.map fun r => ⟨r.nid, r.name, r.globalId⟩).take 2 })
    else none
  relationships := d.relRecs.filter fun rc => rc.2 > 0

/-- The hardcoded fallback snapshot returned when discovery fails
(server.js lines 113-120). -/
def fallbackSnapshot : Snapshot where
  labels :=
    [("IfcWall", { count := 0, properties := ["nid", "Name", "GlobalId"], samples := [] }),
     ("IfcDoor", { count := 0, properties := ["nid", "Name", "GlobalId"], samples := [] }),
     ("IfcWindow", { count := 0, properties := ["nid", "Name", "GlobalId"], samples := [] })]
  relationships := []

/-- The module-level cache cell: `schemaCache` (nullable) and
`schemaCacheTime` (initially 0). -/
structure CacheState where
  cache : Option Snapshot
  time : Nat
  deriving DecidableEq

/-- `CACHE_DURATION`, 5 minutes (server.js line 23). -/
def CACHE_DURATION : Nat := 300000

/-- The body of `discoverSchema` past the cache check: acquire a session,
run the discovery queries; on success store and return the fresh snapshot,
on any error return the hardcoded fallback without storing it; the session
is closed in `finally` on both paths. -/
def doDiscover (st : CacheState) (now : Nat) (disc : Except Unit DiscData) :
    Snapshot × CacheState × List DbEvent :=
  match disc with
  | .ok d =>
    let snap := buildSnapshot d
    (snap, ⟨some snap, now⟩, [DbEvent.sopen, DbEvent.sclose])
  | .error _ => (fallbackSnapshot, st, [DbEvent.sopen, DbEvent.sclose])

/-- `discoverSchema` (server.js lines 26-124): return the cached snapshot
if it exists and is younger than `CACHE_DURATION`, otherwise discover. -/
def discoverSchema (st : CacheState) (now : Nat) (disc : Except Unit DiscData) :
    Snapshot × CacheState × List DbEvent :=
  match st.cache with
  | some snap =>
    if now - st.time < CACHE_DURATION then (snap, st, [])
    else doDiscover st now disc
  | none => doDiscover st now disc

/-! ## `generateSchemaHint` (server.js lines 127-203) -/

/-- The static concept-to-candidate-label table `elementMappings`
(lines 131-148). -/
def elementMappings : List (String × List String) :=
  [("wall", ["IfcWall", "IfcWallStandardCase", "IfcCurtainWall"]),
   ("door", ["IfcDoor"]),
   ("window", ["IfcWindow"]),
   ("slab", ["IfcSlab"]),
   ("column", ["IfcColumn"]),
   ("beam", ["IfcBeam"]),
   ("space", ["IfcSpace"]),
   ("room", ["IfcSpace"]),
   ("floor", ["IfcBuildingStorey", "IfcSlab"]),
   ("storey", ["IfcBuildingStorey"]),
   ("building", ["IfcBuilding"]),
   ("site", ["IfcSite"]),
   ("project", ["IfcProject"]),
   ("pipe", ["IfcPipeSegment", "IfcPipeFitting"]),
   ("duct", ["IfcDuctSegment", "IfcDuctFitting"]),
   ("equipment", ["IfcDistributionElement", "IfcFlowTerminal"])]

/-- `actualMappings` (lines 152-159): keep only the concepts at least one of
whose candidate labels exists, with the candidate list filtered to the
existing ones. -/
def actualMappings (existingLabels : List String) : List (String × List String) :=
  elementMappings.filterMap fun cm =>
    let foundLabels := cm.2.filter fun label => existingLabels.contains label
    if foundLabels.length > 0 then some (cm.1, foundLabels) else none

/-- One line of the AVAILABLE LABELS block (line 165). -/
def labelLine (p : String × LabelInfo) : String :=
  "- " ++ p.1 ++ " (" ++ toString p.2.count ++ " nodes)"

/-- One line of the COMMON ELEMENT MAPPINGS block (lines 168-170). -/
def mappingLine (cm : String × List String) : String :=
  "- " ++ cm.1 ++ ": " ++ joinSep " OR " cm.2

/-- The at-most-10 relationship type names shown in the hint (line 173). -/
def relsShown (schema : Snapshot) : List String :=
  (schema.relationships.map Prod.fst).take 10

/-- Static text of the hint template before the label list. -/
def hintHeader : String :=
  "You are a Cypher generator for a Neo4j graph built from an IFC file.\n\nAVAILABLE LABELS (with counts):\n"

/-- Static text between the label list and the mappings block. -/
def hintMid1 : String := "\n\nCOMMON ELEMENT MAPPINGS:\n"

/-- Static text between the mappings block and the relationship list. -/
def hintMid2 : String := "\n\nRELATIONSHIP TYPES AVAILABLE:\n"

/-- Static tail of the hint template (lines 175-200). -/
def hintTail : String :=
  "\n\nCOMMON PROPERTIES:\n- nid: unique node identifier (integer)\n- Name: element name (string)\n- GlobalId/globalId: IFC global identifier (string)\n- ObjectType: object type description (string)\n- LongName: longer descriptive name (string)\n\nQUERY GUIDELINES:\n1. When user asks about \"walls\", use: MATCH (n) WHERE any(label IN labels(n) WHERE label CONTAINS 'Wall')\n2. For counting, always use this flexible pattern for better results\n3. When listing items, return useful properties: name, globalId, nid\n4. Use coalesce() for name fields: coalesce(n.Name, n.ObjectType, n.LongName, 'Unnamed')\n5. For spatial queries, look for IfcSpace, IfcBuildingStorey, IfcBuilding, IfcSite\n6. Only output valid Cypher - no explanations\n7. Use LIMIT for listing queries to avoid overwhelming results\n\nEXAMPLES:\nQ: \"How many walls are there?\"\nA: MATCH (n) WHERE any(label IN labels(n) WHERE label CONTAINS 'Wall') RETURN count(n) AS count;\n\nQ: \"List all doors with names\"\nA: MATCH (n) WHERE any(label IN labels(n) WHERE label CONTAINS 'Door') RETURN coalesce(n.Name, n.ObjectType, 'Unnamed') AS name, coalesce(n.GlobalId, n.globalId, '') AS globalId, n.nid AS nid LIMIT 20;\n\nQ: \"What spaces are on the ground floor?\"\nA: MATCH (space) WHERE any(label IN labels(space) WHERE label CONTAINS 'Space') MATCH (floor) WHERE any(label IN labels(floor) WHERE label CONTAINS 'Storey') RETURN coalesce(space.Name, space.LongName, 'Unnamed Space') AS spaceName LIMIT 10;\n"

/-- `generateSchemaHint` (lines 127-203): deterministic rendering of the
snapshot into the translator prompt. -/
def generateSchemaHint (schema : Snapshot) : String :=
  hintHeader ++ joinSep "\n" (schema.labels.map labelLine)
    ++ hintMid1
    ++ joinSep "\n" ((actualMappings (schema.labels.map Prod.fst)).map mappingLine)
    ++ hintMid2
    ++ joinSep ", " (relsShown schema)
    ++ hintTail

/-! ## `generateFallbackQueries` (server.js lines 270-343) -/

/-- A fallback candidate `{strategy, cypher}`. -/
structure FallbackCandidate where
  strategy : String
  cypher : String
  deriving DecidableEq

/-- The fixed ordered concept table (lines 275-285): keyword set and
candidate label-name fragments. -/
def concepts : List (List String × List String) :=
  [(["wall", "walls"], ["Wall"]),
   (["door", "doors"], ["Door"]),
   (["window", "windows"], ["Window"]),
   (["slab", "slabs", "floor", "floors"], ["Slab", "Storey"]),
   (["column", "columns"], ["Column"]),
   (["beam", "beams"], ["Beam"]),
   (["space", "spaces", "room", "rooms"], ["Space"]),
   (["building", "buildings"], ["Building"]),
   (["pipe", "pipes"], ["Pipe"])]

/-- Does the snapshot have this exact label (`schema.labels[exactLabel]`
truthiness at line 309)? -/
def hasLabel (schema : Snapshot) (label : String) : Bool :=
  (schema.labels.find? fun p => p.1 == label).isSome

/-- Counting intent of the lower-cased question (lines 294, 310, 328). -/
def countIntent (lq : String) : Bool :=
  strIncludes lq "how many" || strIncludes lq "count"

/-- Listing intent of the lower-cased question (lines 299, 335). -/
def listIntent (lq : String) : Bool :=
  strIncludes lq "list" || strIncludes lq "show" || strIncludes lq "what"

/-- The candidates emitted for one matched concept (lines 289-322): first the
flexible substring-label-match count or list query (if the question shows the
corresponding intent), then for each candidate label fragment whose exact
`Ifc`-prefixed label exists in the snapshot, an exact-label count or list
query. -/
def conceptCands (lq : String) (schema : Snapshot) (c : List String × List String) :
    List FallbackCandidate :=
  let labelCondition := joinSep " OR " (c.2.map fun label => "label CONTAINS '" ++ label ++ "'")
  let flex : List FallbackCandidate :=
    if countIntent lq then
      [{ strategy := "count_" ++ jsToLower (c.2.headD "")
         cypher := "MATCH (n) WHERE any(label IN labels(n) WHERE " ++ labelCondition
           ++ ") RETURN count(n) AS count" }]
    else if listIntent lq then
      [{ strategy := "list_" ++ jsToLower (c.2.headD "")
         cypher := "MATCH (n) WHERE any(label IN labels(n) WHERE " ++ labelCondition
           ++ ") RETURN coalesce(n.Name, n.ObjectType, n.LongName, 'Unnamed') AS name, coalesce(n.GlobalId, n.globalId, '') AS globalId, n.nid AS nid LIMIT 20" }]
    else []
  let exacts : List FallbackCandidate :=
    c.2.flatMap fun label =>
      let exactLabel := "Ifc" ++ label
      if hasLabel schema exactLabel then
        if countIntent lq then
          [{ strategy := "exact_count_" ++ exactLabel
             cypher := "MATCH (n:`" ++ exactLabel ++ "`) RETURN count(n) AS count" }]
        else
          [{ strategy := "exact_list_" ++ exactLabel
             cypher := "MATCH (n:`" ++ exactLabel
               ++ "`) RETURN coalesce(n.Name, n.ObjectType, 'Unnamed') AS name, coalesce(n.GlobalId, n.globalId, '') AS globalId LIMIT 10" }]
      else []
  flex ++ exacts

/-- The `for`/`break` scan over the concept table (lines 287-325): the first
concept one of whose keywords occurs in the lower-cased question contributes
its candidates and stops the scan. -/
def conceptScan (lq : String) (schema : Snapshot) :
    List (List String × List String) → List FallbackCandidate
  | [] => []
  | c :: rest =>
    if c.1.any fun keyword => strIncludes lq keyword then conceptCands lq schema c
    else conceptScan lq schema rest

/-- The generic count fallback appended for counting intent (lines 328-333). -/
def countAllCand : FallbackCandidate where
  strategy := "count_all_elements"
  cypher := "MATCH (n) WHERE any(label IN labels(n) WHERE label STARTS WITH 'Ifc') RETURN count(n) AS count"

/-- The generic label-listing fallback appended for listing intent
(lines 335-340). -/
def showLabelsCand : FallbackCandidate where
  strategy := "show_labels"
  cypher := "MATCH (n) RETURN DISTINCT labels(n) AS node_types, count(n) AS count ORDER BY count DESC LIMIT 10"

/-- `generateFallbackQueries` (lines 270-343). -/
def generateFallbackQueries (question : String) (schema : Snapshot) :
    List FallbackCandidate :=
  let lq := jsToLower question
  conceptScan lq schema concepts
    ++ (if countIntent lq then [countAllCand] else [])
    ++ (if listIntent lq then [showLabelsCand] else [])

/-! ## `processQuery` (server.js lines 206-267)

The translator call (`openai.chat.completions.create`, which either yields
the raw message text or throws) and the database (`session.run`, which for a
given query text either yields rows or throws) are oracle arguments.  The
function returns the value `{cypher, result, attempts}` or the propagated
exception, together with the trace of session and query events. -/

/-- One entry of the `attempts` diagnostic list. -/
structure Attempt where
  cypher : String
  source : String
  deriving DecidableEq

/-- The return value of `processQuery` on normal exit. -/
structure PQOut where
  cypher : String
  result : Res
  attempts : List Attempt

/-- The ultimate fallback query (server.js line 257). -/
def ultimateCypher : String := "MATCH (n) RETURN count(n) AS total_count"

/-- The fallback loop (lines 244-253): each candidate is appended to
`attempts` and executed; the first successful execution (rows may be empty)
ends the loop carrying its cypher and result.  Returns the appended
attempts, the query events, and the successful (cypher, result) if any. -/
def runFallbacks (exec : String → Except Unit Res) :
    List FallbackCandidate → List Attempt × List DbEvent × Option (String × Res)
  | [] => ([], [], none)
  | fb :: rest =>
    match exec fb.cypher with
    | .ok r => ([⟨fb.cypher, fb.strategy⟩], [DbEvent.run fb.cypher], some (fb.cypher, r))
    | .error _ =>
      let t := runFallbacks exec rest
      (⟨fb.cypher, fb.strategy⟩ :: t.1, DbEvent.run fb.cypher :: t.2.1, t.2.2)

/-- The tail of `processQuery` past the fallback loop (lines 255-262): if no
result is held (the AI query threw and no fallback succeeded), run the
ultimate fallback; otherwise return what is held.  `res0` is the retained AI
result (present exactly when the AI query succeeded, necessarily with zero
rows here), `fbRes` the fallback loop's outcome. -/
def afterFB (exec : String → Except Unit Res) (cypher : String) (res0 : Option Res)
    (attempts : List Attempt) (evs : List DbEvent) (fbRes : Option (String × Res)) :
    Except Unit PQOut × List DbEvent :=
  match fbRes with
  | some cr => (.ok ⟨cr.1, cr.2, attempts⟩, evs)
  | none =>
    match res0 with
    | some r => (.ok ⟨cypher, r, attempts⟩, evs)
    | none =>
      match exec ultimateCypher with
      | .ok r =>
        (.ok ⟨ultimateCypher, r, attempts ++ [⟨ultimateCypher, "ultimate_fallback"⟩]⟩,
         evs ++ [DbEvent.run ultimateCypher])
      | .error e => (.error e, evs ++ [DbEvent.run ultimateCypher])

/-- The fallback phase (lines 241-262): generate the candidates, run the
loop, then dispatch on what was obtained. -/
def afterAI (exec : String → Except Unit Res) (question : String) (schema : Snapshot)
    (cypher : String) (attempts0 : List Attempt) (res0 : Option Res) (evs0 : List DbEvent) :
    Except Unit PQOut × List DbEvent :=
  afterFB exec cypher res0
    (attempts0 ++ (runFallbacks exec (generateFallbackQueries question schema)).1)
    (evs0 ++ (runFallbacks exec (generateFallbackQueries question schema)).2.1)
    (runFallbacks exec (generateFallbackQueries question schema)).2.2

/-- The `try` block of `processQuery` (lines 212-262): invoke the translator
(whose failure propagates), clean the returned text, record the AI attempt,
run the AI query (success with at least one row returns immediately; success
with zero rows retains the empty result; an execution error is swallowed),
then enter the fallback phase. -/
def processQueryBody (translator : Except Unit String) (exec : String → Except Unit Res)
    (question : String) (schema : Snapshot) : Except Unit PQOut × List DbEvent :=
  match translator with
  | .error e => (.error e, [])
  | .ok raw =>
    let cypher := cleanCypher raw
    let attempts : List Attempt := [⟨cypher, "AI"⟩]
    match exec cypher with
    | .ok r =>
      if 0 < r.length then (.ok ⟨cypher, r, attempts⟩, [DbEvent.run cypher])
      else afterAI exec question schema cypher attempts (some r) [DbEvent.run cypher]
    | .error _ => afterAI exec question schema cypher attempts none [DbEvent.run cypher]

/-- `processQuery` (lines 206-267): one session is acquired up front and
closed in `finally` on every exit path, around the body. -/
def processQuery (translator : Except Unit String) (exec : String → Except Unit Res)
    (question : String) (schema : Snapshot) : Except Unit PQOut × List DbEvent :=
  ((processQueryBody translator exec question schema).1,
   DbEvent.sopen :: (processQueryBody translator exec question schema).2 ++ [DbEvent.sclose])

/-! ## `formatResult` (server.js lines 346-401) -/

/-- A flattened cell in the generic tabular dump: node objects flatten to
their property map, arrays join into a delimited string, scalars pass
through (lines 385-398). -/
inductive JVal where
  | jNull : JVal
  | jNum (n : Int) : JVal
  | jBool (b : Bool) : JVal
  | jStr (s : String) : JVal
  | jObj (props : List (String × String)) : JVal

/-- Flattening of one cell (lines 388-395). -/
def flattenCell : Value → JVal
  | .vBag props => .jObj props
  | .vArr xs => .jStr (jsJoinVals ", " xs)
  | .vNull => .jNull
  | .vNum n => .jNum n
  | .vStr s => .jStr s
  | .vBool b => .jBool b

/-- Flattening of a whole row. -/
def flattenRecord (r : List (String × Value)) : List (String × JVal) :=
  r.map fun kv => (kv.1, flattenCell kv.2)

/-- JSON string escaping as performed by `JSON.stringify`. -/
def jsonEscapeChar (c : Char) : String :=
  if c = '"' then "\\\""
  else if c = '\\' then "\\\\"
  else if c = '\n' then "\\n"
  else if c = '\r' then "\\r"
  else if c = '\t' then "\\t"
  else if c.val < 32 then
    "\\u00" ++ String.mk [(Nat.digitChar (c.val.toNat / 16)), (Nat.digitChar (c.val.toNat % 16))]
  else String.mk [c]

/-- JSON escaping of a whole string. -/
def jsonEscape (s : String) : String := String.join (s.data.map jsonEscapeChar)

/-- Rendering of a flattened cell with `JSON.stringify(_, null, 2)`
conventions; `ind` is the indentation of the enclosing object's fields. -/
def renderJVal (ind : String) : JVal → String
  | .jNull => "null"
  | .jNum n => toString n
  | .jBool b => cond b "true" "false"
  | .jStr s => "\"" ++ jsonEscape s ++ "\""
  | .jObj [] => "\x7b\x7d"
  | .jObj props =>
    "\x7b\n"
      ++ joinSep ",\n" (props.map fun kv =>
        ind ++ "  \"" ++ jsonEscape kv.1 ++ "\": \"" ++ jsonEscape kv.2 ++ "\"")
      ++ "\n" ++ ind ++ "\x7d"

/-- Rendering of one flattened row object at array level. -/
def renderRow (r : List (String × JVal)) : String :=
  match r with
  | [] => "  \x7b\x7d"
  | _ =>
    "  \x7b\n"
      ++ joinSep ",\n" (r.map fun kv =>
        "    \"" ++ jsonEscape kv.1 ++ "\": " ++ renderJVal "    " kv.2)
      ++ "\n  \x7d"

/-- `JSON.stringify(rows, null, 2)` for the list of flattened row objects. -/
def jsonStringify2 (rows : List (List (String × JVal))) : String :=
  match rows with
  | [] => "[]"
  | _ => "[\n" ++ joinSep ",\n" (rows.map renderRow) ++ "\n]"

/-- One bulleted line of the named-items list (lines 370-375). -/
def bulletLine (record : List (String × Value)) : String :=
  let name := jsOr (recGet record "name") (Value.vStr "Unnamed")
  let globalId := jsOr (recGet record "globalId") (Value.vStr "")
  let nid := jsOr (recGet record "nid") (Value.vStr "")
  "• " ++ jsToString name
    ++ (if truthy globalId then " (ID: " ++ jsToString globalId ++ ")"
        else if truthy nid then " (nid: " ++ jsToString nid ++ ")"
        else "")

/-- The multi-row part of `formatResult` (lines 364-400): the named-items
bulleted list capped at 10 rows with a "... and N more" tail when truncated,
or the generic tabular dump of the first 10 rows. -/
def formatMulti (records : Res) : String :=
  let maxRows : Nat := 10
  let displayRecords := records.take maxRows
  if (recKeys (records.headD [])).contains "name"
      || (recKeys (records.headD [])).contains "globalId" then
    let items := displayRecords.map bulletLine
    let base := "Found " ++ toString records.length ++ " result(s):\n" ++ joinSep "\n" items
    if records.length > maxRows then
      base ++ "\n... and " ++ toString (records.length - maxRows) ++ " more"
    else base
  else
    let rows := displayRecords.map flattenRecord
    "Results (" ++ toString rows.length ++ "/" ++ toString records.length ++ "):\n"
      ++ jsonStringify2 rows

/-- `formatResult` (lines 346-401).  The `question` parameter is accepted,
as in the source, but never read. -/
def formatResult (result : Res) (question : String) : String :=
  match result with
  | [] => "No results found."
  | [r] =>
    match r with
    | [kv] =>
      if strIncludes (jsToLower kv.1) "count" then "Found " ++ jsToString kv.2 ++ " item(s)."
      else "Result: " ++ jsToString kv.2
    | _ => formatMulti [r]
  | records => formatMulti records

/-! ## `extractGlobalIds` (server.js lines 404-431) -/

/-- The 22-character IFC GUID pattern `^[0-9A-Za-z_$-]\x7b22\x7d$`. -/
def isGuidChar (c : Char) : Bool :=
  c.isAlphanum || c == '_' || c == '$' || c == '-'

/-- Test of the full GUID pattern. -/
def isGuid (s : String) : Bool :=
  s.length == 22 && s.data.all isGuidChar

/-- JS `bag.GlobalId || bag.globalId` followed by the truthiness guard of
`if (globalId) ids.add(globalId)` (lines 418-421): the collected identifier,
if any. -/
def bagPick (props : List (String × String)) : Option String :=
  let g :=
    match lookupStr props "GlobalId" with
    | some v => if v == "" then lookupStr props "globalId" else some v
    | none => lookupStr props "globalId"
  match g with
  | some v => if v == "" then none else some v
  | none => none

/-- Processing of one cell (lines 408-427): a string in a column whose name
contains "globalid" is collected outright (then `continue`); a node object
contributes its truthy `GlobalId`/`globalId` property; any other string
matching the GUID pattern is collected. -/
def extractCell (acc : List String) (key : String) (v : Value) : List String :=
  match v with
  | .vStr s =>
    if strIncludes (jsToLower key) "globalid" then addId acc s
    else if isGuid s then addId acc s
    else acc
  | .vBag props =>
    match bagPick props with
    | some g => addId acc g
    | none => acc
  | _ => acc

/-- Processing of one row. -/
def extractRecord (acc : List String) (r : List (String × Value)) : List String :=
  r.foldl (fun (a : List String) (kv : String × Value) => extractCell a kv.1 kv.2) acc

/-- `extractGlobalIds` (lines 404-431): the deduplicated, insertion-ordered
set of identifiers found across all rows. -/
def extractGlobalIds (records : Res) : List String :=
  records.foldl extractRecord []

/-! ## Concrete fixtures used by the theorems below -/

/-- A snapshot containing the exact label `IfcDoor` with positive count. -/
def doorSchema : Snapshot :=
  ⟨[("IfcDoor", ⟨3, ["nid", "Name", "GlobalId"], []⟩)], []⟩

/-- Concrete discovery data for the C3 witness. -/
def dWit : DiscData := ⟨[("A", 2)], fun _ => [], []⟩

/-- The oracle for the C1 counterexample: the AI query `Q0` succeeds with
zero rows, everything else throws. -/
def c1exec : String → Except Unit Res :=
  fun c => if c = "Q0" then .ok [] else .error ()

/-- The oracle for the C2 witness: every query yields one row. -/
def wexec : String → Except Unit Res := fun _ => .ok [[("count", Value.vNum 5)]]

/-- Projection: the final cypher of a resolver outcome. -/
def outCypher : Except Unit PQOut × List DbEvent → Option String
  | (.ok o, _) => some o.cypher
  | (.error _, _) => none

/-- Projection: the final result's row count of a resolver outcome. -/
def outRowCount : Except Unit PQOut × List DbEvent → Option Nat
  | (.ok o, _) => some o.result.length
  | (.error _, _) => none

/-- The oracle for the C2 counterexample: the AI query `Q1` succeeds with
zero rows, everything else (all fallbacks) throws. -/
def c2exec : String → Except Unit Res :=
  fun c => if c = "Q1" then .ok [] else .error ()

/-- Fifteen rows exposing `name` and `globalId` columns. -/
def rows15 : Res :=
  List.replicate 15 [("name", Value.vStr "Door-1"), ("globalId", Value.vStr "G1")]

/-- The 22-character identifier from the spec's example. -/
def g22 : String := "1a2b3c4d5e6f7g8h9i0jkl"

/-- A row holding the same 22-character identifier in two columns. -/
def recs7 : Res := [[("globalId", Value.vStr g22), ("other", Value.vStr g22)]]


/-! ## Generic lemmas about the string helpers -/

lemma startsWithL_nil (s : List Char) : startsWithL [] s = true := rfl

lemma hasSubL_nil_pat (s : List Char) : hasSubL [] s = true := by
  induction s with
  | nil => rfl
  | cons c cs ih => simp [hasSubL, startsWithL]

lemma startsWithL_append (p s t : List Char) (h : startsWithL p s = true) :
    startsWithL p (s ++ t) = true := by
  induction p generalizing s with
  | nil => rfl
  | cons a ps ih =>
    cases s with
    | nil => simp [startsWithL] at h
    | cons c cs =>
      simp only [startsWithL, Bool.and_eq_true] at h ⊢
      exact ⟨h.1, ih cs h.2⟩

lemma startsWithL_self_append (p t : List Char) : startsWithL p (p ++ t) = true := by
  induction p with
  | nil => rfl
  | cons a ps ih => simp [startsWithL, ih]

lemma hasSubL_of_startsWith (pat s : List Char) (h : startsWithL pat s = true) :
    hasSubL pat s = true := by
  cases s with
  | nil => exact h
  | cons c cs => simp [hasSubL, h]

lemma hasSubL_cons (pat : List Char) (c : Char) (cs : List Char)
    (h : hasSubL pat cs = true) : hasSubL pat (c :: cs) = true := by
  simp [hasSubL, h]

lemma hasSubL_append_right (pat s t : List Char) (h : hasSubL pat t = true) :
    hasSubL pat (s ++ t) = true := by
  induction s with
  | nil => exact h
  | cons c cs ih => exact hasSubL_cons pat c (cs ++ t) ih

lemma hasSubL_append_left (pat s t : List Char) (h : hasSubL pat s = true) :
    hasSubL pat (s ++ t) = true := by
  induction s with
  | nil =>
    cases pat with
    | nil => exact hasSubL_nil_pat t
    | cons a ps => simp [hasSubL, startsWithL] at h
  | cons c cs ih =>
    simp only [hasSubL, Bool.or_eq_true] at h
    rcases h with h | h
    · exact hasSubL_of_startsWith pat ((c :: cs) ++ t) (startsWithL_append pat (c :: cs) t h)
    · exact hasSubL_cons pat c (cs ++ t) (ih h)

lemma hasSubL_middle (a pat b : List Char) : hasSubL pat (a ++ (pat ++ b)) = true :=
  hasSubL_append_right pat a (pat ++ b)
    (hasSubL_of_startsWith pat (pat ++ b) (startsWithL_self_append pat b))

/-- Any element's substring is a substring of a `joinSep` of mapped strings. -/
lemma hasSubL_joinSep_map {α : Type} (sep : String) (f : α → String) (l : List α)
    (x : α) (hx : x ∈ l) (pat : List Char) (hp : hasSubL pat (f x).data = true) :
    hasSubL pat (joinSep sep (l.map f)).data = true := by
  induction l with
  | nil => cases hx
  | cons y ys ih =>
    cases ys with
    | nil =>
      rcases List.mem_singleton.mp hx with rfl
      simpa [joinSep] using hp
    | cons y2 ys2 =>
      rcases List.mem_cons.mp hx with rfl | hx'
      · show hasSubL pat (f x ++ sep ++ joinSep sep ((y2 :: ys2).map f)).data = true
        simp only [String.data_append]
        exact hasSubL_append_left pat ((f x).data ++ sep.data) _
          (hasSubL_append_left pat (f x).data sep.data hp)
      · show hasSubL pat (f y ++ sep ++ joinSep sep ((y2 :: ys2).map f)).data = true
        simp only [String.data_append]
        exact hasSubL_append_right pat _ _ (ih hx')

/-! ## Claim C6: fallback generation order -/

/-- The concept scan is first-match-wins: it yields the candidates of the
first concept whose keyword set intersects the question, and nothing from
later concepts. -/
lemma conceptScan_eq_find (lq : String) (schema : Snapshot)
    (cs : List (List String × List String)) :
    conceptScan lq schema cs =
      ((cs.find? fun c => c.1.any fun keyword => strIncludes lq keyword).map
        (conceptCands lq schema)).getD [] := by
  induction cs with
  | nil => rfl
  | cons c rest ih =>
    by_cases h : (c.1.any fun keyword => strIncludes lq keyword) = true
    · simp [conceptScan, h, List.find?_cons_of_pos]
    · rw [Bool.not_eq_true] at h
      simp [conceptScan, h, List.find?_cons_of_neg, ih]

set_option maxRecDepth 8192 in
/-- C6: `generateFallbackQueries` is a pure function; the concept scan stops
at the first concept whose keyword set intersects the lower-cased question
(first conjunct, a first-match characterization of the loop), and for the
question "list all doors with names" over a snapshot containing `IfcDoor`
the candidate list is exactly the flexible listing query first, the
exact-label listing query on `IfcDoor` second, and the generic label listing
last — so the flexible candidate precedes the exact-label one and all
concept-specific candidates precede the generic ones. -/
theorem generateFallbackQueries_spec :
    (∀ lq schema, conceptScan lq schema concepts =
      ((concepts.find? fun c => c.1.any fun keyword => strIncludes lq keyword).map
        (conceptCands lq schema)).getD [])
  ∧ (generateFallbackQueries "list all doors with names" doorSchema).head? =
      some ⟨"list_door",
        "MATCH (n) WHERE any(label IN labels(n) WHERE label CONTAINS 'Door') RETURN coalesce(n.Name, n.ObjectType, n.LongName, 'Unnamed') AS name, coalesce(n.GlobalId, n.globalId, '') AS globalId, n.nid AS nid LIMIT 20"⟩
  ∧ (generateFallbackQueries "list all doors with names" doorSchema).drop 1 =
      [⟨"exact_list_IfcDoor",
        "MATCH (n:`IfcDoor`) RETURN coalesce(n.Name, n.ObjectType, 'Unnamed') AS name, coalesce(n.GlobalId, n.globalId, '') AS globalId LIMIT 10"⟩,
       showLabelsCand] :=
  ⟨fun lq schema => conceptScan_eq_find lq schema concepts, by decide, by decide⟩

/-! ## Claim C9: the schema hint -/

/-- The concept names of `elementMappings` are pairwise distinct keys. -/
lemma elementMappings_keyUniq :
    ∀ x ∈ elementMappings, ∀ y ∈ elementMappings, x.1 = y.1 → x = y := by decide

/-- C9: `generateSchemaHint` is a pure, deterministic function of the
snapshot; its output contains every label name of the snapshot; a
concept-to-label mapping is rendered exactly when at least one of the
concept's candidate labels exists in the snapshot; and the relationship
list it renders names at most 10 relationship types. -/
theorem generateSchemaHint_spec (schema : Snapshot) :
    (∀ p ∈ schema.labels, strIncludes (generateSchemaHint schema) p.1 = true)
  ∧ (∀ cm ∈ elementMappings,
      (cm.1 ∈ (actualMappings (schema.labels.map Prod.fst)).map Prod.fst ↔
        ∃ lab ∈ cm.2, lab ∈ schema.labels.map Prod.fst))
  ∧ (relsShown schema).length ≤ 10 := by
  refine ⟨?_, ?_, ?_⟩
  · intro p hp
    show hasSubL p.1.data (generateSchemaHint schema).data = true
    have hline : hasSubL p.1.data (labelLine p).data = true := by
      simp only [labelLine, String.data_append, List.append_assoc]
      exact hasSubL_middle "- ".data p.1.data _
    have hjoin : hasSubL p.1.data (joinSep "\n" (schema.labels.map labelLine)).data = true :=
      hasSubL_joinSep_map "\n" labelLine schema.labels p hp p.1.data hline
    simp only [generateSchemaHint, String.data_append, List.append_assoc]
    exact hasSubL_append_right _ _ _ (hasSubL_append_left _ _ _ hjoin)
  · intro cm hcm
    constructor
    · intro h
      rcases List.mem_map.mp h with ⟨e, he, hfst⟩
      rcases List.mem_filterMap.mp he with ⟨cm', hcm', hf⟩
      have hz : (if (cm'.2.filter fun label =>
            (schema.labels.map Prod.fst).contains label).length > 0
          then some (cm'.1, cm'.2.filter fun label =>
            (schema.labels.map Prod.fst).contains label)
          else (none : Option (String × List String))) = some e := hf
      by_cases hlen : (cm'.2.filter fun label =>
          (schema.labels.map Prod.fst).contains label).length > 0
      · rw [if_pos hlen] at hz
        have he2 := Option.some.inj hz
        have hkey : cm'.1 = cm.1 := by rw [← hfst, ← he2]
        have hcm'' : cm' = cm := elementMappings_keyUniq cm' hcm' cm hcm hkey
        subst hcm''
        rcases List.exists_mem_of_length_pos hlen with ⟨lab, hlab⟩
        rcases List.mem_filter.mp hlab with ⟨hmem, hcont⟩
        exact ⟨lab, hmem, List.elem_iff.mp hcont⟩
      · rw [if_neg hlen] at hz
        cases hz
    · rintro ⟨lab, hlab, hmem⟩
      have hcont : ((schema.labels.map Prod.fst).contains lab) = true :=
        List.elem_iff.mpr hmem
      have hfl : lab ∈ cm.2.filter fun label =>
          (schema.labels.map Prod.fst).contains label :=
        List.mem_filter.mpr ⟨hlab, hcont⟩
      have hlen : (cm.2.filter fun label =>
          (schema.labels.map Prod.fst).contains label).length > 0 :=
        List.length_pos.mpr (List.ne_nil_of_mem hfl)
      refine List.mem_map.mpr ⟨(cm.1, cm.2.filter fun label =>
        (schema.labels.map Prod.fst).contains label), ?_, rfl⟩
      refine List.mem_filterMap.mpr ⟨cm, hcm, ?_⟩
      show (if (cm.2.filter fun label =>
            (schema.labels.map Prod.fst).contains label).length > 0
          then some (cm.1, cm.2.filter fun label =>
            (schema.labels.map Prod.fst).contains label)
          else (none : Option (String × List String))) =
        some (cm.1, cm.2.filter fun label => (schema.labels.map Prod.fst).contains label)
      exact if_pos hlen
  · simp only [relsShown, List.length_take]
    omega

/-- Witness for C9 at a concrete snapshot: the hint for `doorSchema`
contains its only label name. -/
theorem generateSchemaHint_spec_witness :
    strIncludes (generateSchemaHint doorSchema) "IfcDoor" = true :=
  (generateSchemaHint_spec doorSchema).1 ("IfcDoor", ⟨3, ["nid", "Name", "GlobalId"], []⟩)
    (List.mem_singleton.mpr rfl)

/-! ## Claims C5, C3, C8: cache policy, label-count invariant, sessions -/

lemma doDiscover_events (st : CacheState) (now : Nat) (disc : Except Unit DiscData) :
    (doDiscover st now disc).2.2 = [DbEvent.sopen, DbEvent.sclose] := by
  cases disc <;> rfl

/-- C5: a snapshot younger than the TTL is returned as-is, with no database
event and no state change — so two calls within the TTL window yield the
identical snapshot; and when discovery fails the hardcoded fallback snapshot
is returned with the cache left unchanged, so a subsequent (not earlier)
call reaches discovery again. -/
theorem discoverSchema_cache_policy
    (st : CacheState) (now now' : Nat) (disc disc' : Except Unit DiscData) :
    (∀ snap, st.cache = some snap → now - st.time < CACHE_DURATION →
      now' - st.time < CACHE_DURATION →
      discoverSchema st now disc = (snap, st, []) ∧
      discoverSchema (discoverSchema st now disc).2.1 now' disc' = (snap, st, []))
  ∧ ((st.cache = none ∨ CACHE_DURATION ≤ now - st.time) →
      discoverSchema st now (.error ()) =
        (fallbackSnapshot, st, [DbEvent.sopen, DbEvent.sclose]) ∧
      (now ≤ now' →
        (discoverSchema st now' disc').2.2 = [DbEvent.sopen, DbEvent.sclose])) := by
  constructor
  · intro snap hc hfresh hfresh'
    have h1 : discoverSchema st now disc = (snap, st, []) := by
      simp [discoverSchema, hc, hfresh]
    refine ⟨h1, ?_⟩
    rw [h1]
    simp [discoverSchema, hc, hfresh']
  · intro hmiss
    constructor
    · rcases hmiss with hnone | hstale
      · simp [discoverSchema, hnone, doDiscover]
      · cases hcache : st.cache with
        | none => simp [discoverSchema, hcache, doDiscover]
        | some snap =>
          simp [discoverSchema, hcache, not_lt.mpr hstale, doDiscover]
    · intro hle
      rcases hmiss with hnone | hstale
      · simp [discoverSchema, hnone, doDiscover_events]
      · have hstale' : CACHE_DURATION ≤ now' - st.time :=
          le_trans hstale (Nat.sub_le_sub_right hle st.time)
        cases hcache : st.cache with
        | none => simp [discoverSchema, hcache, doDiscover_events]
        | some snap =>
          simp [discoverSchema, hcache, not_lt.mpr hstale', doDiscover_events]

/-- Witness for C5: with a snapshot stored at time 100 and the clock at 150
(inside the TTL), the cached snapshot is returned unchanged with no
database event even though discovery would fail. -/
theorem discoverSchema_cache_policy_witness :
    discoverSchema ⟨some fallbackSnapshot, 100⟩ 150 (.error ()) =
      (fallbackSnapshot, ⟨some fallbackSnapshot, 100⟩, []) :=
  ((discoverSchema_cache_policy ⟨some fallbackSnapshot, 100⟩ 150 200
      (.error ()) (.error ())).1 fallbackSnapshot rfl (by decide) (by decide)).1

/-- C3 (amended): on every successful-discovery exit of `discoverSchema`
(the path that builds a snapshot from discovered data), every label of the
returned snapshot has a strictly positive count; the hardcoded fallback
snapshot returned on the failure path violates this (see the
counterexample). -/
theorem discoverSchema_success_counts_pos
    (st : CacheState) (now : Nat) (d : DiscData)
    (hmiss : st.cache = none ∨ CACHE_DURATION ≤ now - st.time) :
    ∀ p ∈ (discoverSchema st now (.ok d)).1.labels, 0 < p.2.count := by
  have hbuild : (discoverSchema st now (.ok d)).1 = buildSnapshot d := by
    rcases hmiss with hnone | hstale
    · simp [discoverSchema, hnone, doDiscover]
    · cases hcache : st.cache with
      | none => simp [discoverSchema, hcache, doDiscover]
      | some snap =>
        simp [discoverSchema, hcache, not_lt.mpr hstale, doDiscover]
  rw [hbuild]
  intro p hp
  rcases List.mem_filterMap.mp hp with ⟨lc, hlc, hf⟩
  have hz : (if lc.2 > 0 then
      some (lc.1,
        ({ count := lc.2
           properties := collectProps (d.sampleOf lc.1)
           samples := ((d.sampleOf lc.1).map fun r => ⟨r.nid, r.name, r.globalId⟩).take 2 } :
          LabelInfo))
      else none) = some p := hf
  by_cases hpos : lc.2 > 0
  · rw [if_pos hpos] at hz
    have := Option.some.inj hz
    rw [← this]
    exact hpos
  · rw [if_neg hpos] at hz
    cases hz

/-- Witness for C3 at concrete discovery data with one label of count 2. -/
theorem discoverSchema_success_counts_pos_witness :
    0 < ((("A" : String), ({ count := 2, properties := [], samples := [] } : LabelInfo))).2.count :=
  discoverSchema_success_counts_pos ⟨none, 0⟩ 0 dWit (Or.inl rfl)
    ("A", { count := 2, properties := [], samples := [] }) (by decide)

/-- Counterexample for C3 as stated: the failure exit path of
`discoverSchema` returns the hardcoded fallback snapshot, which contains
the label `IfcWall` with count 0 — not strictly positive. -/
theorem c3_counterexample :
    ("IfcWall",
        ({ count := 0, properties := ["nid", "Name", "GlobalId"], samples := [] } : LabelInfo))
      ∈ (discoverSchema ⟨none, 0⟩ 0 (.error ())).1.labels
    ∧ ¬ (0 < (({ count := 0, properties := ["nid", "Name", "GlobalId"], samples := [] } :
        LabelInfo)).count) :=
  ⟨by decide, by decide⟩

lemma runFallbacks_events_run (exec : String → Except Unit Res)
    (l : List FallbackCandidate) :
    ∀ e ∈ (runFallbacks exec l).2.1, ∃ cy, e = DbEvent.run cy := by
  induction l with
  | nil => simp [runFallbacks]
  | cons fb rest ih =>
    intro e he
    simp only [runFallbacks] at he
    cases hx : exec fb.cypher with
    | ok r =>
      rw [hx] at he
      simp only [List.mem_singleton] at he
      exact ⟨fb.cypher, he⟩
    | error err =>
      rw [hx] at he
      simp only [List.mem_cons] at he
      rcases he with rfl | he'
      · exact ⟨fb.cypher, rfl⟩
      · exact ih e he'

lemma afterFB_events_run (exec : String → Except Unit Res) (cypher : String)
    (res0 : Option Res) (attempts : List Attempt) (evs : List DbEvent)
    (fbRes : Option (String × Res))
    (h : ∀ e ∈ evs, ∃ cy, e = DbEvent.run cy) :
    ∀ e ∈ (afterFB exec cypher res0 attempts evs fbRes).2, ∃ cy, e = DbEvent.run cy := by
  unfold afterFB
  cases fbRes with
  | some cr => exact h
  | none =>
    cases res0 with
    | some r => exact h
    | none =>
      cases exec ultimateCypher with
      | ok r =>
        intro e he
        rcases List.mem_append.mp he with he' | he'
        · exact h e he'
        · exact ⟨ultimateCypher, List.mem_singleton.mp he'⟩
      | error err =>
        intro e he
        rcases List.mem_append.mp he with he' | he'
        · exact h e he'
        · exact ⟨ultimateCypher, List.mem_singleton.mp he'⟩

lemma afterAI_events_run (exec : String → Except Unit Res) (question : String)
    (schema : Snapshot) (cypher : String) (attempts0 : List Attempt)
    (res0 : Option Res) (evs0 : List DbEvent)
    (h0 : ∀ e ∈ evs0, ∃ cy, e = DbEvent.run cy) :
    ∀ e ∈ (afterAI exec question schema cypher attempts0 res0 evs0).2,
      ∃ cy, e = DbEvent.run cy := by
  apply afterFB_events_run
  intro e he
  rcases List.mem_append.mp he with he' | he'
  · exact h0 e he'
  · exact runFallbacks_events_run exec (generateFallbackQueries question schema) e he'

lemma processQueryBody_events_run (translator : Except Unit String)
    (exec : String → Except Unit Res) (question : String) (schema : Snapshot) :
    ∀ e ∈ (processQueryBody translator exec question schema).2,
      ∃ cy, e = DbEvent.run cy := by
  simp only [processQueryBody]
  split
  · simp
  · split
    · split
      · intro e he
        exact ⟨_, List.mem_singleton.mp he⟩
      · apply afterAI_events_run
        intro e he
        exact ⟨_, List.mem_singleton.mp he⟩
    · apply afterAI_events_run
      intro e he
      exact ⟨_, List.mem_singleton.mp he⟩

/-- C8 (amended): `processQuery` always opens exactly one session and closes
it last on every exit path, with only query executions in between; and
`discoverSchema` either performs no session activity at all (a cache hit)
or opens exactly one session and closes it, on both the success and the
failure path. -/
theorem sessions_balanced :
    (∀ translator exec question schema,
      ∃ mid, (processQuery translator exec question schema).2 =
          DbEvent.sopen :: (mid ++ [DbEvent.sclose])
        ∧ ∀ e ∈ mid, ∃ cy, e = DbEvent.run cy)
  ∧ (∀ st now disc, (discoverSchema st now disc).2.2 = []
      ∨ (discoverSchema st now disc).2.2 = [DbEvent.sopen, DbEvent.sclose]) := by
  constructor
  · intro translator exec question schema
    exact ⟨(processQueryBody translator exec question schema).2, rfl,
      processQueryBody_events_run translator exec question schema⟩
  · intro st now disc
    cases hcache : st.cache with
    | none => exact Or.inr (by simp [discoverSchema, hcache, doDiscover_events])
    | some snap =>
      by_cases hfresh : now - st.time < CACHE_DURATION
      · exact Or.inl (by simp [discoverSchema, hcache, hfresh])
      · exact Or.inr (by simp [discoverSchema, hcache, hfresh, doDiscover_events])

/-- Counterexample for C8 as stated: a cache-hit call of `discoverSchema`
is a normal exit path that acquires no database session at all, so
`discoverSchema` does not acquire exactly one session on every exit path. -/
theorem c8_counterexample :
    (discoverSchema ⟨some fallbackSnapshot, 0⟩ 0 (.error ())).2.2 = [] := by decide

/-! ## Claims C1, C2: the resolver's result policy -/

lemma runFallbacks_all_fail (exec : String → Except Unit Res)
    (l : List FallbackCandidate)
    (h : ∀ fb ∈ l, exec fb.cypher = .error ()) :
    (runFallbacks exec l).2.2 = none := by
  induction l with
  | nil => rfl
  | cons fb rest ih =>
    show (match exec fb.cypher with
      | .ok r => ([Attempt.mk fb.cypher fb.strategy], [DbEvent.run fb.cypher],
          some (fb.cypher, r))
      | .error _ =>
        let t := runFallbacks exec rest
        (Attempt.mk fb.cypher fb.strategy :: t.1, DbEvent.run fb.cypher :: t.2.1,
          t.2.2)).2.2 = none
    rw [h fb (List.mem_cons_self fb rest)]
    exact ih fun x hx => h x (List.mem_cons_of_mem fb hx)

lemma runFallbacks_first_ok (exec : String → Except Unit Res)
    (pre post : List FallbackCandidate) (fb : FallbackCandidate) (r : Res)
    (hpre : ∀ x ∈ pre, exec x.cypher = .error ())
    (hfb : exec fb.cypher = .ok r) :
    (runFallbacks exec (pre ++ fb :: post)).2.2 = some (fb.cypher, r) := by
  induction pre with
  | nil =>
    show (match exec fb.cypher with
      | .ok r => ([Attempt.mk fb.cypher fb.strategy], [DbEvent.run fb.cypher],
          some (fb.cypher, r))
      | .error _ =>
        let t := runFallbacks exec post
        (Attempt.mk fb.cypher fb.strategy :: t.1, DbEvent.run fb.cypher :: t.2.1,
          t.2.2)).2.2 = some (fb.cypher, r)
    rw [hfb]
  | cons x xs ih =>
    show (match exec x.cypher with
      | .ok r => ([Attempt.mk x.cypher x.strategy], [DbEvent.run x.cypher],
          some (x.cypher, r))
      | .error _ =>
        let t := runFallbacks exec (xs ++ fb :: post)
        (Attempt.mk x.cypher x.strategy :: t.1, DbEvent.run x.cypher :: t.2.1,
          t.2.2)).2.2 = some (fb.cypher, r)
    rw [hpre x (List.mem_cons_self x xs)]
    exact ih fun y hy => hpre y (List.mem_cons_of_mem x hy)

/-- C1 (amended): when the translator-generated query's execution fails
(throws) and every fallback candidate's execution also fails — which covers
the case of an empty candidate list — the ultimate fallback query
`MATCH (n) RETURN count(n) AS total_count` is executed, and when its
execution succeeds its result is what `processQuery` returns.  (When the
generated query succeeded with zero rows, however, the retained empty
result is returned instead and the ultimate fallback is not reached: see
the counterexample.) -/
theorem processQuery_ultimate_on_total_failure
    (exec : String → Except Unit Res) (raw question : String) (schema : Snapshot)
    (hAI : exec (cleanCypher raw) = .error ())
    (hfb : ∀ fb ∈ generateFallbackQueries question schema, exec fb.cypher = .error ()) :
    DbEvent.run ultimateCypher ∈ (processQuery (.ok raw) exec question schema).2
  ∧ (∀ r, exec ultimateCypher = .ok r →
      (processQuery (.ok raw) exec question schema).1 =
        .ok ⟨ultimateCypher, r,
          [⟨cleanCypher raw, "AI"⟩]
            ++ (runFallbacks exec (generateFallbackQueries question schema)).1
            ++ [⟨ultimateCypher, "ultimate_fallback"⟩]⟩) := by
  have hnone := runFallbacks_all_fail exec _ hfb
  constructor
  · simp only [processQuery, processQueryBody, hAI, afterAI, hnone, afterFB]
    cases hu : exec ultimateCypher <;> simp
  · intro r hr
    simp only [processQuery, processQueryBody, hAI, afterAI, hnone, afterFB, hr]

/-- Witness for C1: with a database that rejects every query, the ultimate
fallback is still executed. -/
theorem processQuery_ultimate_witness :
    DbEvent.run ultimateCypher ∈
      (processQuery (.ok "MATCH (x) RETURN x") (fun _ => .error ())
        "hello" (⟨[], []⟩ : Snapshot)).2 :=
  (processQuery_ultimate_on_total_failure (fun _ => .error ()) "MATCH (x) RETURN x"
    "hello" ⟨[], []⟩ rfl fun _ _ => rfl).1

/-- Counterexample for C1 as stated: for the question "zzz" the fallback
candidate list is empty, the generated query executed successfully with
zero rows, and yet the ultimate fallback is never executed — its `run`
event does not occur. -/
theorem c1_counterexample :
    generateFallbackQueries "zzz" (⟨[], []⟩ : Snapshot) = []
  ∧ c1exec (cleanCypher "Q0") = .ok []
  ∧ DbEvent.run ultimateCypher ∉
      (processQuery (.ok "Q0") c1exec "zzz" (⟨[], []⟩ : Snapshot)).2 :=
  ⟨by decide, rfl, by decide⟩

/-- C2 (amended): the generated query's result is returned immediately
exactly on success with at least one row (first conjunct); in the fallback
phase the first candidate whose execution succeeds is accepted as the final
result even with zero rows (second conjunct); but when the generated query
succeeded with zero rows and every fallback candidate fails, the generated
query's empty result is what is returned — so "returned as the final
result" is not equivalent to "succeeded with at least one row" (third
conjunct, the amendment forced by the counterexample). -/
theorem processQuery_result_policy
    (exec : String → Except Unit Res) (raw question : String) (schema : Snapshot) :
    (∀ r, exec (cleanCypher raw) = .ok r → 0 < r.length →
      processQuery (.ok raw) exec question schema =
        (.ok ⟨cleanCypher raw, r, [⟨cleanCypher raw, "AI"⟩]⟩,
         [DbEvent.sopen, DbEvent.run (cleanCypher raw), DbEvent.sclose]))
  ∧ (∀ pre fb post r,
      generateFallbackQueries question schema = pre ++ fb :: post →
      (∀ x ∈ pre, exec x.cypher = .error ()) →
      exec fb.cypher = .ok r →
      (exec (cleanCypher raw) = .error () ∨ exec (cleanCypher raw) = .ok []) →
      ∃ atts, (processQuery (.ok raw) exec question schema).1 = .ok ⟨fb.cypher, r, atts⟩)
  ∧ (exec (cleanCypher raw) = .ok [] →
      (∀ x ∈ generateFallbackQueries question schema, exec x.cypher = .error ()) →
      ∃ atts, (processQuery (.ok raw) exec question schema).1 =
        .ok ⟨cleanCypher raw, [], atts⟩) := by
  refine ⟨?_, ?_, ?_⟩
  · intro r hok hlen
    simp only [processQuery, processQueryBody, hok, if_pos hlen]
    rfl
  · intro pre fb post r heq hpre hok hai
    have hsome : (runFallbacks exec (generateFallbackQueries question schema)).2.2 =
        some (fb.cypher, r) := by
      rw [heq]; exact runFallbacks_first_ok exec pre post fb r hpre hok
    rcases hai with herr | hok0
    · refine ⟨[Attempt.mk (cleanCypher raw) "AI"]
        ++ (runFallbacks exec (generateFallbackQueries question schema)).1, ?_⟩
      simp only [processQuery, processQueryBody, herr, afterAI, hsome, afterFB]
    · refine ⟨[Attempt.mk (cleanCypher raw) "AI"]
        ++ (runFallbacks exec (generateFallbackQueries question schema)).1, ?_⟩
      simp only [processQuery, processQueryBody, hok0, List.length_nil, lt_irrefl, if_false,
        afterAI, hsome, afterFB]
  · intro hok0 hall
    have hnone := runFallbacks_all_fail exec _ hall
    refine ⟨[Attempt.mk (cleanCypher raw) "AI"]
      ++ (runFallbacks exec (generateFallbackQueries question schema)).1, ?_⟩
    simp only [processQuery, processQueryBody, hok0, List.length_nil, lt_irrefl, if_false,
      afterAI, hnone, afterFB]

/-- Witness for C2: a generated query succeeding with one row is returned
immediately as the final result, with a single attempt recorded. -/
theorem processQuery_result_policy_witness :
    processQuery (.ok "QX") wexec "zzz" (⟨[], []⟩ : Snapshot) =
      (.ok ⟨cleanCypher "QX", [[("count", Value.vNum 5)]], [⟨cleanCypher "QX", "AI"⟩]⟩,
       [DbEvent.sopen, DbEvent.run (cleanCypher "QX"), DbEvent.sclose]) :=
  (processQuery_result_policy wexec "QX" "zzz" ⟨[], []⟩).1
    [[("count", Value.vNum 5)]] rfl (by decide)

/-- Counterexample for C2 as stated: the generated query succeeds with zero
rows and every fallback candidate fails, yet the generated query's result —
with zero rows — is returned as the final result, refuting the "only if"
direction of the claim. -/
theorem c2_counterexample :
    c2exec (cleanCypher "Q1") = .ok []
  ∧ outCypher (processQuery (.ok "Q1") c2exec "list all doors with names" doorSchema) =
      some (cleanCypher "Q1")
  ∧ outRowCount (processQuery (.ok "Q1") c2exec "list all doors with names" doorSchema) =
      some 0 :=
  ⟨rfl, by decide, by decide⟩

/-! ## Claims C4, C10: the formatter -/

/-- C4 (amended): `formatResult` renders zero rows as exactly
"No results found."; one row with one column whose name contains "count"
(case-insensitively) and value 5 as exactly "Found 5 item(s)."; and 15
name/globalId rows as exactly 10 bulleted entries followed by a
"... and 5 more" suffix (with a space after the ellipsis — the claim's
quoted suffix "...and 5 more" does not occur, see the counterexample). -/
theorem formatResult_spec :
    (∀ question, formatResult [] question = "No results found.")
  ∧ (∀ k question, strIncludes (jsToLower k) "count" = true →
      formatResult [[(k, Value.vNum 5)]] question = "Found 5 item(s).")
  ∧ (∀ question, countChar (formatResult rows15 question) '•' = 10
      ∧ strEndsWith (formatResult rows15 question) "... and 5 more" = true) := by
  refine ⟨fun question => rfl, ?_, ?_⟩
  · intro k question h
    show (if strIncludes (jsToLower k) "count" = true
        then "Found " ++ jsToString (Value.vNum 5) ++ " item(s)."
        else "Result: " ++ jsToString (Value.vNum 5)) = "Found 5 item(s)."
    rw [if_pos h]
    decide
  · intro question
    have hred : formatResult rows15 question = formatMulti rows15 := rfl
    rw [hred]
    exact ⟨by decide, by decide⟩

/-- Witness for C4 at a concrete column name containing "count". -/
theorem formatResult_spec_witness :
    formatResult [[("total_count", Value.vNum 5)]] "x" = "Found 5 item(s)." :=
  formatResult_spec.2.1 "total_count" "x" (by decide)

/-- Counterexample for C4 as stated: the truncation suffix rendered for 15
name/globalId rows is "... and 5 more" (space after the ellipsis); the
claim's exact string "...and 5 more" is neither a suffix nor even a
substring of the output. -/
theorem c4_counterexample :
    strEndsWith (formatResult rows15 "q") "...and 5 more" = false
  ∧ strIncludes (formatResult rows15 "q") "...and 5 more" = false
  ∧ strEndsWith (formatResult rows15 "q") "... and 5 more" = true :=
  ⟨by decide, by decide, by decide⟩

/-- C10: although `formatResult` takes the question as second parameter, its
output depends only on the result argument. -/
theorem formatResult_ignores_question (result : Res) (q1 q2 : String) :
    formatResult result q1 = formatResult result q2 := rfl

/-! ## Claim C7: identifier extraction -/

lemma mem_addId_self (acc : List String) (s : String) : s ∈ addId acc s := by
  unfold addId
  split
  · assumption
  · simp

lemma mem_addId_of_mem (acc : List String) (s x : String) (h : x ∈ acc) :
    x ∈ addId acc s := by
  unfold addId
  split
  · exact h
  · exact List.mem_append_left _ h

lemma nodup_addId (acc : List String) (s : String) (h : acc.Nodup) :
    (addId acc s).Nodup := by
  unfold addId
  split
  · exact h
  · next hmem =>
    refine List.Nodup.append h (List.nodup_singleton s) ?_
    intro a ha hb
    rw [List.mem_singleton] at hb
    exact hmem (hb ▸ ha)

lemma extractCell_mono (acc : List String) (k : String) (v : Value) (x : String)
    (h : x ∈ acc) : x ∈ extractCell acc k v := by
  cases v with
  | vStr s =>
    show x ∈ (if strIncludes (jsToLower k) "globalid" = true then addId acc s
      else if isGuid s = true then addId acc s else acc)
    split
    · exact mem_addId_of_mem acc s x h
    · split
      · exact mem_addId_of_mem acc s x h
      · exact h
  | vBag props =>
    show x ∈ (match bagPick props with
      | some g => addId acc g
      | none => acc)
    cases bagPick props with
    | some g => exact mem_addId_of_mem acc g x h
    | none => exact h
  | vNull => exact h
  | vNum n => exact h
  | vBool b => exact h
  | vArr xs => exact h

lemma extractCell_nodup (acc : List String) (k : String) (v : Value)
    (h : acc.Nodup) : (extractCell acc k v).Nodup := by
  cases v with
  | vStr s =>
    show ((if strIncludes (jsToLower k) "globalid" = true then addId acc s
      else if isGuid s = true then addId acc s else acc)).Nodup
    split
    · exact nodup_addId acc s h
    · split
      · exact nodup_addId acc s h
      · exact h
  | vBag props =>
    show (match bagPick props with
      | some g => addId acc g
      | none => acc).Nodup
    cases bagPick props with
    | some g => exact nodup_addId acc g h
    | none => exact h
  | vNull => exact h
  | vNum n => exact h
  | vBool b => exact h
  | vArr xs => exact h

lemma mem_foldl_of_mem {β : Type} (f : List String → β → List String) (x : String)
    (mono : ∀ acc b, x ∈ acc → x ∈ f acc b) (l : List β) :
    ∀ acc, x ∈ acc → x ∈ l.foldl f acc := by
  induction l with
  | nil => exact fun acc h => h
  | cons y ys ih => exact fun acc h => ih (f acc y) (mono acc y h)

lemma mem_foldl_of_hit {β : Type} (f : List String → β → List String) (x : String)
    (mono : ∀ acc b, x ∈ acc → x ∈ f acc b) (b0 : β) (l : List β) (hb : b0 ∈ l)
    (hit : ∀ acc, x ∈ f acc b0) : ∀ acc, x ∈ l.foldl f acc := by
  induction l with
  | nil => cases hb
  | cons y ys ih =>
    intro acc
    rcases List.mem_cons.mp hb with rfl | hb'
    · exact mem_foldl_of_mem f x mono ys (f acc b0) (hit acc)
    · exact ih hb' (f acc y)

lemma nodup_foldl {β : Type} (f : List String → β → List String)
    (hf : ∀ acc b, acc.Nodup → (f acc b).Nodup) (l : List β) :
    ∀ acc, acc.Nodup → (l.foldl f acc).Nodup := by
  induction l with
  | nil => exact fun acc h => h
  | cons y ys ih => exact fun acc h => ih (f acc y) (hf acc y h)

lemma extractRecord_mono (r : List (String × Value)) (x : String) :
    ∀ acc, x ∈ acc → x ∈ extractRecord acc r :=
  fun acc h =>
    mem_foldl_of_mem (fun (a : List String) (kv : String × Value) => extractCell a kv.1 kv.2) x
      (fun a kv hm => extractCell_mono a kv.1 kv.2 x hm) r acc h

/-- C7 (amended): `extractGlobalIds` returns a duplicate-free collection of
strings; any string cell matching the 22-character GUID pattern is collected
regardless of column name; any string cell in a column whose name contains
"globalid" (case-insensitively) is collected; from a property-bag cell, the
identifier selected by `GlobalId || globalId` under JS truthiness (the first
non-empty of the two fields) is collected — a present but empty `GlobalId`
is not itself collected (see the counterexample); and every collected
identifier occurs exactly once, so a 22-character identifier appearing in
two different columns occurs once in the output. -/
theorem extractGlobalIds_spec (recs : Res) :
    (extractGlobalIds recs).Nodup
  ∧ (∀ r ∈ recs, ∀ kv ∈ r, ∀ s : String, kv.2 = Value.vStr s → isGuid s = true →
      s ∈ extractGlobalIds recs)
  ∧ (∀ r ∈ recs, ∀ kv ∈ r, ∀ s : String, kv.2 = Value.vStr s →
      strIncludes (jsToLower kv.1) "globalid" = true → s ∈ extractGlobalIds recs)
  ∧ (∀ r ∈ recs, ∀ kv ∈ r, ∀ props g, kv.2 = Value.vBag props →
      bagPick props = some g → g ∈ extractGlobalIds recs)
  ∧ (∀ s ∈ extractGlobalIds recs, (extractGlobalIds recs).count s = 1) := by
  have hmonoR : ∀ acc r, ∀ x ∈ acc, x ∈ extractRecord acc r :=
    fun acc r x hx => extractRecord_mono r x acc hx
  have hmainOf : ∀ (r : List (String × Value)), r ∈ recs → ∀ (x : String),
      (∀ acc, x ∈ extractRecord acc r) → x ∈ extractGlobalIds recs :=
    fun r hr x hit =>
      mem_foldl_of_hit extractRecord x (fun acc b hx => hmonoR acc b x hx) r recs hr hit []
  have hcellOf : ∀ (r : List (String × Value)) (kv : String × Value), kv ∈ r →
      ∀ (x : String), (∀ a, x ∈ extractCell a kv.1 kv.2) → ∀ acc, x ∈ extractRecord acc r :=
    fun r kv hkv x hit acc =>
      mem_foldl_of_hit (fun (a : List String) (p : String × Value) => extractCell a p.1 p.2) x
        (fun a p hx => extractCell_mono a p.1 p.2 x hx) kv r hkv hit acc
  refine ⟨?_, ?_, ?_, ?_, ?_⟩
  · exact nodup_foldl extractRecord
      (fun acc r h =>
        nodup_foldl (fun (a : List String) (kv : String × Value) => extractCell a kv.1 kv.2)
          (fun a kv hn => extractCell_nodup a kv.1 kv.2 hn) r acc h)
      recs [] List.nodup_nil
  · intro r hr kv hkv s hs hguid
    refine hmainOf r hr s (hcellOf r kv hkv s ?_)
    intro a
    rw [hs]
    show s ∈ (if strIncludes (jsToLower kv.1) "globalid" = true then addId a s
      else if isGuid s = true then addId a s else a)
    by_cases hcol : strIncludes (jsToLower kv.1) "globalid" = true
    · rw [if_pos hcol]
      exact mem_addId_self a s
    · rw [if_neg hcol, if_pos hguid]
      exact mem_addId_self a s
  · intro r hr kv hkv s hs hcol
    refine hmainOf r hr s (hcellOf r kv hkv s ?_)
    intro a
    rw [hs]
    show s ∈ (if strIncludes (jsToLower kv.1) "globalid" = true then addId a s
      else if isGuid s = true then addId a s else a)
    rw [if_pos hcol]
    exact mem_addId_self a s
  · intro r hr kv hkv props g hb hpick
    refine hmainOf r hr g (hcellOf r kv hkv g ?_)
    intro a
    rw [hb]
    show g ∈ (match bagPick props with
      | some gg => addId a gg
      | none => a)
    rw [hpick]
    exact mem_addId_self a g
  · intro s hs
    refine List.count_eq_one_of_mem ?_ hs
    exact nodup_foldl extractRecord
      (fun acc r h =>
        nodup_foldl (fun (a : List String) (kv : String × Value) => extractCell a kv.1 kv.2)
          (fun a kv hn => extractCell_nodup a kv.1 kv.2 hn) r acc h)
      recs [] List.nodup_nil

/-- Witness for C7: the identifier appearing in two columns of one row is
extracted and occurs exactly once. -/
theorem extractGlobalIds_spec_witness :
    g22 ∈ extractGlobalIds recs7 ∧ (extractGlobalIds recs7).count g22 = 1 := by
  have hmem : g22 ∈ extractGlobalIds recs7 :=
    (extractGlobalIds_spec recs7).2.2.1
      [("globalId", Value.vStr g22), ("other", Value.vStr g22)]
      (List.mem_singleton.mpr rfl)
      ("globalId", Value.vStr g22) (List.mem_cons_self _ _) g22 rfl (by decide)
  exact ⟨hmem, (extractGlobalIds_spec recs7).2.2.2.2 g22 hmem⟩

/-- Counterexample for C7 as stated: a property-bag cell whose `GlobalId`
field is present (with the empty string as value) contributes nothing — the
extracted collection is empty, so the field is not "collected when
present". -/
theorem c7_counterexample :
    (lookupStr [("GlobalId", "")] "GlobalId").isSome = true
  ∧ extractGlobalIds [[("n", Value.vBag [("GlobalId", "")])]] = [] :=
  ⟨rfl, by decide⟩

end IFCRag
